import Mathlib

set_option autoImplicit false

namespace RecipeStore

/-- A JavaScript value as it appears in the JSON-backed documents of the
store: `null`, booleans, numbers, strings and arrays.  Payloads cached by
`saveToCache` and results of `fetchFn` are such values. -/
inductive JsValue where
  | nullV : JsValue
  | boolV : Bool → JsValue
  | numV : Int → JsValue
  | strV : String → JsValue
  | arrV : List JsValue → JsValue

/-- JavaScript truthiness, as used by `if (cachedData)` in
`getCachedOrFetch` (src/cache.js line 299): `null`, `false`, `0` and the
empty string are falsy; arrays are always truthy. -/
def truthy : JsValue → Bool
  | .nullV => false
  | .boolV b => b
  | .numV n => n != 0
  | .strV s => s != ""
  | .arrV _ => true

/-- One cache entry, `{ timestamp: Date.now(), data: data }` as written by
`saveToCache` (src/cache.js lines 236-239). -/
structure CacheEntry where
  timestamp : Int
  data : JsValue

/-- The cache document: a JSON object mapping keys to entries, modelled as
an association list in insertion order (JS object keys keep insertion
order, and `for...in` in `clearExpiredCache` iterates in that order). -/
def CacheDoc : Type := List (String × CacheEntry)

/-- `CACHE_DURATION = 24 * 60 * 60 * 1000` (src/cache.js line 178). -/
def CACHE_DURATION : Int := 24 * 60 * 60 * 1000

/-- State of the backing cache file: missing, unreadable (I/O error on
read), unparseable content, or a parsed document. -/
inductive CacheFile where
  | absent : CacheFile
  | unreadable : CacheFile
  | corrupt : CacheFile
  | content : List (String × CacheEntry) → CacheFile

/-- `fs.readFile` followed by `JSON.parse`: throws (returns `.error`) when
the file is missing, unreadable or unparseable. -/
def readCacheDoc : CacheFile → Except Unit (List (String × CacheEntry))
  | .content doc => .ok doc
  | _ => .error ()

/-- `cache[key]` on the parsed object: the entry stored under `key`, if
any. -/
def lookupKey : List (String × CacheEntry) → String → Option CacheEntry
  | [], _ => none
  | (k, e) :: rest, key => if k = key then some e else lookupKey rest key

/-- `cache[key] = e` on the parsed object: replaces an existing binding in
place, otherwise appends a new one. -/
def setKey : List (String × CacheEntry) → String → CacheEntry → List (String × CacheEntry)
  | [], key, e => [(key, e)]
  | (k, e0) :: rest, key, e =>
    if k = key then (key, e) :: rest else (k, e0) :: setKey rest key e

/-- `initializeCache` (src/cache.js lines 187-194): if the file is absent,
create it holding the empty object `{}`; otherwise leave it alone. -/
def initializeCache : CacheFile → CacheFile
  | .absent => .content []
  | st => st

/-- `getFromCache(key)` (src/cache.js lines 205-218), at clock reading
`now`: read and parse the file; on any error return `null`; return the
stored data only when an entry exists and `now - timestamp <
CACHE_DURATION`; the file is never written, so the state is returned
unchanged. -/
def getFromCache (st : CacheFile) (now : Int) (key : String) : JsValue × CacheFile :=
  match readCacheDoc st with
  | .error _ => (.nullV, st)
  | .ok cache =>
    match lookupKey cache key with
    | some entry =>
      if now - entry.timestamp < CACHE_DURATION then (entry.data, st) else (.nullV, st)
    | none => (.nullV, st)

/-- `saveToCache(key, data)` (src/cache.js lines 230-247), at clock
reading `now`: initialize the file if absent, re-read and parse it (any
error is caught and reported as `false`), store
`{ timestamp: now, data }` under `key` and write the document back. -/
def saveToCache (st : CacheFile) (now : Int) (key : String) (data : JsValue) :
    Bool × CacheFile :=
  let st1 := initializeCache st
  match readCacheDoc st1 with
  | .error _ => (false, st1)
  | .ok cache => (true, .content (setKey cache key ⟨now, data⟩))

/-- `clearExpiredCache()` (src/cache.js lines 257-279), at clock reading
`now`: delete every entry with `now - timestamp >= CACHE_DURATION`,
counting deletions; write the document back only when at least one entry
was deleted (the third component records whether a write happened); any
read error is caught and reported as `0` removals. -/
def clearExpiredCache (st : CacheFile) (now : Int) : Nat × CacheFile × Bool :=
  match readCacheDoc st with
  | .error _ => (0, st, false)
  | .ok cache =>
    let removedCount :=
      cache.countP (fun kv => decide (CACHE_DURATION ≤ now - kv.2.timestamp))
    let kept := cache.filter (fun kv => decide (now - kv.2.timestamp < CACHE_DURATION))
    if 0 < removedCount then (removedCount, .content kept, true)
    else (removedCount, st, false)

/-- Outcome of awaiting the caller-supplied `fetchFn()`: it resolves with
a value or rejects with an error. -/
inductive FetchOutcome where
  | ok : JsValue → FetchOutcome
  | err : String → FetchOutcome

/-- `getCachedOrFetch(key, fetchFn, forceRefresh)` (src/cache.js lines
292-307), run to completion without interleaving: unless `forceRefresh`,
read the cache at time `tRead`; if the cached value is truthy return it;
otherwise await `fetchFn()` (a rejection propagates, nothing is written)
and on success save the result at time `tSave` and return it.  The third
component counts how many times `fetchFn` was invoked by this call. -/
def getCachedOrFetch (st : CacheFile) (tRead tSave : Int) (key : String)
    (fetchFn : FetchOutcome) (forceRefresh : Bool) :
    FetchOutcome × CacheFile × Nat :=
  let cachedData := if forceRefresh then JsValue.nullV else (getFromCache st tRead key).1
  if truthy cachedData then (.ok cachedData, st, 0)
  else
    match fetchFn with
    | .err e => (.err e, st, 1)
    | .ok freshData =>
      let saved := saveToCache st tSave key freshData
      (.ok freshData, saved.2, 1)

/-- A favorite recipe record; identity is the `idMeal` field used by
`addFavorite` and `removeFavorite` (src/favorites.js), the `name` field
stands for the rest of the record. -/
structure Recipe where
  idMeal : String
  name : String

/-- State of the backing favorites file. -/
inductive FavFile where
  | absent : FavFile
  | unreadable : FavFile
  | corrupt : FavFile
  | content : List Recipe → FavFile

/-- `initializeFavorites` (src/favorites.js lines 23-30): if the file is
absent, create it holding the empty array `[]`. -/
def initializeFavorites : FavFile → FavFile
  | .absent => .content []
  | st => st

/-- `fs.readFile` followed by `JSON.parse` of the favorites file. -/
def readFavDoc : FavFile → Except Unit (List Recipe)
  | .content favs => .ok favs
  | _ => .error ()

/-- `getFavorites()` (src/favorites.js lines 39-47): initialize the file
if absent, read and parse it; any error is caught and the empty list is
returned. -/
def getFavorites (st : FavFile) : List Recipe × FavFile :=
  let st1 := initializeFavorites st
  match readFavDoc st1 with
  | .error _ => ([], st1)
  | .ok favs => (favs, st1)

/-- `addFavorite(recipe)` (src/favorites.js lines 58-75): load the
favorites; if some record already has the same `idMeal`, return `false`
without writing; otherwise push `recipe` at the end, write the document
back and return `true`. -/
def addFavorite (st : FavFile) (recipe : Recipe) : Bool × FavFile :=
  let st1 := initializeFavorites st
  let loaded := getFavorites st1
  if loaded.1.any (fun fav => fav.idMeal == recipe.idMeal) then (false, loaded.2)
  else (true, .content (loaded.1 ++ [recipe]))

/-- `removeFavorite(recipeId)` (src/favorites.js lines 86-101): load the
favorites and filter out every record whose `idMeal` equals `recipeId`;
if the length is unchanged return `false` without writing; otherwise
write the filtered document and return `true`. -/
def removeFavorite (st : FavFile) (recipeId : String) : Bool × FavFile :=
  let st1 := initializeFavorites st
  let loaded := getFavorites st1
  let updatedFavorites := loaded.1.filter (fun fav => fav.idMeal != recipeId)
  if loaded.1.length = updatedFavorites.length then (false, loaded.2)
  else (true, .content updatedFavorites)

/-- Parameters of one `getCachedOrFetch` call in the interleaved model. -/
structure CallSpec where
  key : String
  fetchFn : FetchOutcome
  forceRefresh : Bool

/-- Progress of one `getCachedOrFetch` call, cut at its `await` points:
not started; returned from `await getFromCache(key)` (or skipped it under
`forceRefresh`) holding `cachedData`; returned from `await fetchFn()`
with a value, about to save; finished with a result. -/
inductive CallPhase where
  | start : CallPhase
  | afterRead : JsValue → CallPhase
  | fetched : JsValue → CallPhase
  | done : FetchOutcome → CallPhase

/-- State shared by the interleaved calls: the backing file and the total
number of `fetchFn` invocations so far. -/
structure SharedState where
  file : CacheFile
  fetchCalls : Nat

/-- One atomic segment of `getCachedOrFetch` between `await` points,
acting on the shared file state (src/cache.js lines 292-307): the read
segment, the truthiness test plus `fetchFn` invocation, and the save
segment; a finished call stays finished. -/
def stepCall (g : SharedState) (c : CallPhase) (p : CallSpec) (now : Int) :
    SharedState × CallPhase :=
  match c with
  | .start =>
    let cachedData :=
      if p.forceRefresh then JsValue.nullV else (getFromCache g.file now p.key).1
    (g, .afterRead cachedData)
  | .afterRead cachedData =>
    if truthy cachedData then (g, .done (.ok cachedData))
    else
      match p.fetchFn with
      | .ok v => (⟨g.file, g.fetchCalls + 1⟩, .fetched v)
      | .err e => (⟨g.file, g.fetchCalls + 1⟩, .done (.err e))
  | .fetched v =>
    let saved := saveToCache g.file now p.key v
    (⟨saved.2, g.fetchCalls⟩, .done (.ok v))
  | .done r => (g, .done r)

/-- Run two interleaved `getCachedOrFetch` calls under a schedule: each
list element picks which call performs its next atomic segment (`false`
for the first call, `true` for the second). -/
def runSched (p1 p2 : CallSpec) (now : Int) :
    List Bool → SharedState → CallPhase → CallPhase →
    SharedState × CallPhase × CallPhase
  | [], g, c1, c2 => (g, c1, c2)
  | false :: rest, g, c1, c2 =>
    let s := stepCall g c1 p1 now
    runSched p1 p2 now rest s.1 s.2 c2
  | true :: rest, g, c1, c2 =>
    let s := stepCall g c2 p2 now
    runSched p1 p2 now rest s.1 c1 s.2

theorem lookupKey_setKey_self (doc : List (String × CacheEntry)) (key : String)
    (e : CacheEntry) : lookupKey (setKey doc key e) key = some e := by
  induction doc with
  | nil => simp [setKey, lookupKey]
  | cons kv rest ih =>
    obtain ⟨k, e0⟩ := kv
    by_cases h : k = key
    · simp [setKey, h, lookupKey]
    · simp [setKey, h, lookupKey, ih]

/-- Claim C10: loading from an absent, unreadable or unparseable backing
file yields the well-defined empty value without any error escaping: the
empty list for `getFavorites`, `null` for `getFromCache`. -/
theorem load_missing_or_corrupt_yields_empty :
    (getFavorites .absent).1 = []
    ∧ (getFavorites .unreadable).1 = []
    ∧ (getFavorites .corrupt).1 = []
    ∧ (∀ now key, (getFromCache .absent now key).1 = .nullV)
    ∧ (∀ now key, (getFromCache .unreadable now key).1 = .nullV)
    ∧ (∀ now key, (getFromCache .corrupt now key).1 = .nullV) :=
  ⟨rfl, rfl, rfl, fun _ _ => rfl, fun _ _ => rfl, fun _ _ => rfl⟩

/-- Claim C9: an existing-but-stale entry behaves as absent for
`getFromCache` — the call returns `null` — and the read leaves the cache
document exactly as it was: the stale entry is not deleted. -/
theorem getFromCache_stale_null_no_mutation (doc : List (String × CacheEntry))
    (now : Int) (key : String) (entry : CacheEntry)
    (hlook : lookupKey doc key = some entry)
    (hstale : CACHE_DURATION ≤ now - entry.timestamp) :
    getFromCache (.content doc) now key = (.nullV, .content doc) := by
  simp [getFromCache, readCacheDoc, hlook, not_lt.mpr hstale]

theorem getFromCache_stale_null_no_mutation_witness :
    getFromCache (.content [("k1", ⟨0, .strV "v1"⟩)]) CACHE_DURATION "k1"
      = (.nullV, .content [("k1", ⟨0, .strV "v1"⟩)]) :=
  getFromCache_stale_null_no_mutation [("k1", ⟨0, .strV "v1"⟩)] CACHE_DURATION "k1"
    ⟨0, .strV "v1"⟩ rfl (by decide)

/-- Claim C7: `saveToCache(k, v)` followed by `getFromCache(k)` within the
TTL window returns `v`, for every key and every value. -/
theorem saveToCache_then_getFromCache (doc : List (String × CacheEntry))
    (tWrite tRead : Int) (key : String) (v : JsValue)
    (hfresh : tRead - tWrite < CACHE_DURATION) :
    (getFromCache (saveToCache (.content doc) tWrite key v).2 tRead key).1 = v := by
  simp [saveToCache, initializeCache, readCacheDoc, getFromCache,
    lookupKey_setKey_self, hfresh]

theorem saveToCache_then_getFromCache_witness :
    (getFromCache (saveToCache (.content []) 0 "k1" (.strV "v1")).2 0 "k1").1
      = .strV "v1" :=
  saveToCache_then_getFromCache [] 0 0 "k1" (.strV "v1") (by decide)

/-- Claim C3: when `fetchFn` rejects and the call actually reaches the
fetch (a forced refresh, or the cached read came back falsy), the failure
propagates out of `getCachedOrFetch` and the cache file is left exactly
as it was: no entry is written. -/
theorem getCachedOrFetch_failure_propagates (st : CacheFile) (tRead tSave : Int)
    (key e : String) (forceRefresh : Bool)
    (hmiss : forceRefresh = true ∨ truthy (getFromCache st tRead key).1 = false) :
    getCachedOrFetch st tRead tSave key (.err e) forceRefresh = (.err e, st, 1) := by
  cases forceRefresh
  · rcases hmiss with h | h
    · exact absurd h Bool.false_ne_true
    · simp [getCachedOrFetch, h]
  · simp [getCachedOrFetch, truthy]

theorem getCachedOrFetch_failure_propagates_witness :
    getCachedOrFetch (.content []) 0 0 "k1" (.err "boom") false
      = (.err "boom", .content [], 1) :=
  getCachedOrFetch_failure_propagates (.content []) 0 0 "k1" "boom" false (Or.inr rfl)

/-- Claim C2 is false on the code: here the entry for `"k1"` exists, is
fresh (`now - storedAt = 0 < TTL`) and stores the falsy payload `false`,
yet `getCachedOrFetch("k1", fetchFn, false)` invokes `fetchFn` (invocation
count `1`) and returns the fetched value, not the cached one, because the
hit test `if (cachedData)` uses JS truthiness. -/
theorem fresh_falsy_hit_refetches :
    getCachedOrFetch (.content [("k1", ⟨0, .boolV false⟩)]) 0 0 "k1"
        (.ok (.strV "fetched")) false
      = (.ok (.strV "fetched"), .content [("k1", ⟨0, .strV "fetched"⟩)], 1) := rfl

/-- Claim C2 (amended): for every fresh cache entry whose stored payload
is truthy in the JS sense (not `null`, `false`, `0` or `""`),
`getCachedOrFetch(k, fetchFn, false)` returns the stored payload without
invoking `fetchFn`; a fresh falsy payload is instead treated as a miss. -/
theorem fresh_truthy_hit_returned_without_fetch (doc : List (String × CacheEntry))
    (now tSave : Int) (key : String) (entry : CacheEntry) (fetchFn : FetchOutcome)
    (hlook : lookupKey doc key = some entry)
    (hfresh : now - entry.timestamp < CACHE_DURATION)
    (htruthy : truthy entry.data = true) :
    getCachedOrFetch (.content doc) now tSave key fetchFn false
      = (.ok entry.data, .content doc, 0) := by
  simp [getCachedOrFetch, getFromCache, readCacheDoc, hlook, hfresh, htruthy]

theorem fresh_truthy_hit_returned_without_fetch_witness :
    getCachedOrFetch (.content [("k1", ⟨0, .strV "v1"⟩)]) 0 0 "k1"
        (.ok (.strV "other")) false
      = (.ok (.strV "v1"), .content [("k1", ⟨0, .strV "v1"⟩)], 0) :=
  fresh_truthy_hit_returned_without_fetch [("k1", ⟨0, .strV "v1"⟩)] 0 0 "k1"
    ⟨0, .strV "v1"⟩ (.ok (.strV "other")) rfl (by decide) rfl

/-- Claim C4: on a cache miss, every value `fetchFn` resolves with —
`null`, the empty array, an error-message string, anything — is persisted
under `key` with the fresh timestamp `tSave` before being returned; no
resolved value is exempt from being cached. -/
theorem resolved_value_always_persisted (doc : List (String × CacheEntry))
    (tRead tSave : Int) (key : String) (v : JsValue)
    (hmiss : truthy (getFromCache (.content doc) tRead key).1 = false) :
    getCachedOrFetch (.content doc) tRead tSave key (.ok v) false
        = (.ok v, .content (setKey doc key ⟨tSave, v⟩), 1)
      ∧ lookupKey (setKey doc key ⟨tSave, v⟩) key = some ⟨tSave, v⟩ :=
  ⟨by simp [getCachedOrFetch, hmiss, saveToCache, initializeCache, readCacheDoc],
   lookupKey_setKey_self doc key ⟨tSave, v⟩⟩

theorem resolved_value_always_persisted_witness :
    getCachedOrFetch (.content []) 0 0 "k1" (.ok .nullV) false
        = (.ok .nullV, .content (setKey [] "k1" ⟨0, .nullV⟩), 1)
      ∧ lookupKey (setKey [] "k1" ⟨0, .nullV⟩) "k1" = some ⟨0, .nullV⟩ :=
  resolved_value_always_persisted [] 0 0 "k1" .nullV rfl

/-- Claim C5: `addFavorite` returns `false` and leaves the document
untouched when a record with the same identifier already exists, and
otherwise appends the record at the end and returns `true`; consequently
every add preserves identifier uniqueness. -/
theorem addFavorite_unique_append (favs : List Recipe) (r : Recipe) :
    (addFavorite (.content favs) r
        = if favs.any (fun fav => fav.idMeal == r.idMeal)
          then (false, .content favs)
          else (true, .content (favs ++ [r])))
    ∧ ((favs.map Recipe.idMeal).Nodup →
        ∀ favs2, (addFavorite (.content favs) r).2 = .content favs2 →
          (favs2.map Recipe.idMeal).Nodup) := by
  constructor
  · by_cases h : favs.any (fun fav => fav.idMeal == r.idMeal)
    · simp [addFavorite, initializeFavorites, getFavorites, readFavDoc, h]
    · simp [addFavorite, initializeFavorites, getFavorites, readFavDoc, h]
  · intro hnd favs2 heq
    by_cases h : favs.any (fun fav => fav.idMeal == r.idMeal)
    · simp [addFavorite, initializeFavorites, getFavorites, readFavDoc, h] at heq
      exact heq ▸ hnd
    · simp [addFavorite, initializeFavorites, getFavorites, readFavDoc, h] at heq
      subst heq
      rw [List.map_append, List.nodup_append]
      refine ⟨hnd, List.nodup_singleton _, ?_⟩
      intro a ha hb
      simp only [List.map_cons, List.map_nil, List.mem_singleton] at hb
      subst hb
      obtain ⟨x, hx, hxe⟩ := List.mem_map.mp ha
      have h0 : favs.any (fun fav => fav.idMeal == r.idMeal) = false := by simpa using h
      have := List.any_eq_false.mp h0 x hx
      simp only [beq_iff_eq] at this
      exact this hxe

theorem addFavorite_unique_append_witness :
    (addFavorite (.content []) ⟨"52772", "Teriyaki Chicken"⟩
        = (true, .content [⟨"52772", "Teriyaki Chicken"⟩]))
    ∧ (([⟨"52772", "Teriyaki Chicken"⟩] : List Recipe).map Recipe.idMeal).Nodup := by
  constructor
  · have h := (addFavorite_unique_append [] ⟨"52772", "Teriyaki Chicken"⟩).1
    simpa using h
  · exact (addFavorite_unique_append [] ⟨"52772", "Teriyaki Chicken"⟩).2
      (by simp) [⟨"52772", "Teriyaki Chicken"⟩] rfl

/-- Claim C8: `removeFavorite` returns `true` exactly when some record
carries the given identifier, in which case the matching records are
removed; when none does it returns `false` — an ordinary return value,
not a raised error — and the document is exactly what it was. -/
theorem removeFavorite_absent_false_present_removes (favs : List Recipe)
    (recipeId : String) :
    removeFavorite (.content favs) recipeId
      = (favs.any (fun fav => fav.idMeal == recipeId),
         if favs.any (fun fav => fav.idMeal == recipeId)
         then .content (favs.filter (fun fav => fav.idMeal != recipeId))
         else .content favs) := by
  have hiff : (favs.filter (fun fav => fav.idMeal != recipeId)).length = favs.length
      ↔ ∀ fav ∈ favs, fav.idMeal ≠ recipeId := by
    constructor
    · intro hlen fav hmem
      have heq := (List.filter_sublist favs).eq_of_length hlen
      have := List.filter_eq_self.mp heq fav hmem
      simpa [bne_iff_ne] using this
    · intro hall
      rw [List.filter_eq_self.mpr]
      intro a ha
      simpa [bne_iff_ne] using hall a ha
  by_cases h : favs.any (fun fav => fav.idMeal == recipeId)
  · have hne : ¬ favs.length
        = (favs.filter (fun fav => fav.idMeal != recipeId)).length := by
      intro hlen
      obtain ⟨x, hx, he⟩ := List.any_eq_true.mp h
      exact hiff.mp hlen.symm x hx (by simpa [beq_iff_eq] using he)
    simp [removeFavorite, initializeFavorites, getFavorites, readFavDoc, h, hne]
  · have heqlen : favs.length
        = (favs.filter (fun fav => fav.idMeal != recipeId)).length := by
      symm
      rw [hiff]
      intro fav hmem
      have h0 : favs.any (fun fav => fav.idMeal == recipeId) = false := by simpa using h
      have := List.any_eq_false.mp h0 fav hmem
      simpa [beq_iff_eq] using this
    simp [removeFavorite, initializeFavorites, getFavorites, readFavDoc, h, heqlen]

/-- Claim C6: on a parsed cache document, `clearExpiredCache` keeps
exactly the fresh entries in their original order, removes exactly the
stale ones (the removal count plus the number kept equals the original
size), and performs a write (third component) exactly when at least one
entry was removed. -/
theorem clearExpiredCache_removes_exactly_expired
    (doc : List (String × CacheEntry)) (now : Int) :
    (clearExpiredCache (.content doc) now).2.1
        = .content (doc.filter (fun kv => decide (now - kv.2.timestamp < CACHE_DURATION)))
    ∧ (clearExpiredCache (.content doc) now).1
        + (doc.filter (fun kv => decide (now - kv.2.timestamp < CACHE_DURATION))).length
        = doc.length
    ∧ ((clearExpiredCache (.content doc) now).2.2 = true
        ↔ 0 < (clearExpiredCache (.content doc) now).1) := by
  have hlen : ∀ l : List (String × CacheEntry),
      l.countP (fun kv => decide (CACHE_DURATION ≤ now - kv.2.timestamp))
        + (l.filter (fun kv => decide (now - kv.2.timestamp < CACHE_DURATION))).length
        = l.length := by
    intro l
    induction l with
    | nil => simp
    | cons kv rest ih =>
      by_cases h : now - kv.2.timestamp < CACHE_DURATION
      · simp [List.countP_cons, List.filter_cons, h, not_le.mpr h]
        omega
      · simp [List.countP_cons, List.filter_cons, h, not_lt.mp h]
        omega
  by_cases hpos :
      0 < doc.countP (fun kv => decide (CACHE_DURATION ≤ now - kv.2.timestamp))
  · refine ⟨?_, ?_, ?_⟩ <;>
      simp [clearExpiredCache, readCacheDoc, hpos, hlen doc]
  · have hz : doc.countP (fun kv => decide (CACHE_DURATION ≤ now - kv.2.timestamp)) = 0 :=
      Nat.eq_zero_of_not_pos hpos
    have hfull :
        (doc.filter (fun kv => decide (now - kv.2.timestamp < CACHE_DURATION))).length
          = doc.length := by
      have := hlen doc
      omega
    have hself :
        doc.filter (fun kv => decide (now - kv.2.timestamp < CACHE_DURATION)) = doc :=
      (List.filter_sublist doc).eq_of_length hfull
    refine ⟨?_, ?_, ?_⟩ <;>
      simp [clearExpiredCache, readCacheDoc, hpos, hz, hself, hfull]

/-- Claim C1 is false on the code: two concurrent
`getCachedOrFetch("k1", fetchFn)` calls that both miss the empty cache —
both perform their cache read before either one fetches — invoke
`fetchFn` twice, not exactly once: `getCachedOrFetch` has no
single-flight coordination. -/
theorem concurrent_misses_invoke_fetch_twice :
    (runSched ⟨"k1", .ok (.strV "v1"), false⟩ ⟨"k1", .ok (.strV "v1"), false⟩ 0
        [false, true, false, false, true, true]
        ⟨.content [], 0⟩ .start .start).1.fetchCalls = 2 := rfl

/-- Claim C1 (amended): the code has no single-flight coordination — each
concurrent caller that misses the cache invokes `fetchFn` itself.  Under
the schedule where both calls read the empty cache before either writes,
`fetchFn` is invoked twice (once per caller), each caller completes with
the value of its own invocation, and the save of the second caller
overwrites that of the first. -/
theorem concurrent_misses_fetch_once_per_caller (key : String) (v1 v2 : JsValue)
    (t : Int) :
    runSched ⟨key, .ok v1, false⟩ ⟨key, .ok v2, false⟩ t
        [false, true, false, false, true, true] ⟨.content [], 0⟩ .start .start
      = (⟨.content [(key, ⟨t, v2⟩)], 2⟩, .done (.ok v1), .done (.ok v2)) := by
  simp [runSched, stepCall, getFromCache, readCacheDoc, lookupKey, truthy,
    saveToCache, initializeCache, setKey]

/-- Faithfulness of the interleaved model: running the atomic segments of
a single call back to back, with no other call interleaved, agrees with
the sequential `getCachedOrFetch` in result, final file state and number
of `fetchFn` invocations. -/
theorem stepCall_sequential_agrees (st : CacheFile) (n : Nat) (t : Int) (p : CallSpec) :
    (stepCall (stepCall (stepCall ⟨st, n⟩ .start p t).1
          (stepCall ⟨st, n⟩ .start p t).2 p t).1
        (stepCall (stepCall ⟨st, n⟩ .start p t).1
          (stepCall ⟨st, n⟩ .start p t).2 p t).2 p t)
      = (⟨(getCachedOrFetch st t t p.key p.fetchFn p.forceRefresh).2.1,
          n + (getCachedOrFetch st t t p.key p.fetchFn p.forceRefresh).2.2⟩,
         .done (getCachedOrFetch st t t p.key p.fetchFn p.forceRefresh).1) := by
  obtain ⟨key, fetchFn, forceRefresh⟩ := p
  cases forceRefresh with
  | true => cases fetchFn <;> simp [stepCall, getCachedOrFetch, truthy]
  | false =>
    by_cases h : truthy (getFromCache st t key).1 <;>
      cases fetchFn <;> simp [stepCall, getCachedOrFetch, h]

end RecipeStore
